import Mathlib

/-
Verification of the feed-ingestion / deduplication pipeline of src/bot.py
(tkzzzz/INFresourcebot).  The Python module is shallowly embedded below:

* `Entry` models a feedparser entry (the fields the code reads);
* `parse_resource_values` models the extractor at src/bot.py lines 32-76;
* `stageCandidates` / `recordGuids` / `trimSeen` / `tick` model the body of
  `fetch_rss_feed_task` (lines 92-163);
* `deliverAll` models the delivery loop with its `discord.Forbidden`
  (break) and `discord.HTTPException` (log and continue) handlers
  (lines 144-156), driven by an outcome oracle;
* `before_fetch_rss_feed_task` models the before-loop hook (lines 170-175),
  which only waits for readiness and leaves the seen list untouched.

Machine integers do not occur: the Python ints involved (stat values,
timestamps, lengths) are arbitrary-precision, so `Nat` is exact.
Timestamps are modelled as `Nat`, with `0` playing the role of the
`datetime.min` sentinel that `get_sort_key` returns for undated entries.
-/

namespace ResourceBot

set_option maxRecDepth 100000

/-- Configuration constant `TARGET_SERVER_NAME` (src/bot.py line 15). -/
def TARGET_SERVER_NAME : String := "SWG Infinity"

/-- Configuration constant `MAX_SEEN_ENTRIES` (src/bot.py line 17). -/
def MAX_SEEN_ENTRIES : Nat := 200

/-- One feedparser entry, restricted to the fields `fetch_rss_feed_task`
and `parse_resource_values` read.  `rawGuid` is the optional `guid` key;
`content` is `entry.content[0]['value']` when the `content` attribute is
present and non-empty (otherwise `none`); `summary` and `description`
exist on feedparser entries but are never read by the code.
`published_parsed` / `updated_parsed` carry the parsed timestamps used by
`get_sort_key`. -/
structure Entry where
  rawGuid : Option String
  title : String
  link : String
  published_parsed : Option Nat
  updated_parsed : Option Nat
  content : Option String
  summary : Option String
  description : Option String
deriving DecidableEq

/-- `entry.get("guid", entry.link)` (src/bot.py line 115). -/
def entryGuid (e : Entry) : String := e.rawGuid.getD e.link

/- ---------- the stat extractor (src/bot.py lines 32-76) ---------- -/

/-- Character class `[A-Z]` of the regex at line 51. -/
def isUpperAZ (c : Char) : Bool := 'A' ≤ c && c ≤ 'Z'

/-- Character class `\d` of the regex at line 51. -/
def isDigit09 (c : Char) : Bool := '0' ≤ c && c ≤ '9'

/-- Character class `\s` (ASCII part) of the regex at line 51. -/
def isWsChar (c : Char) : Bool :=
  c = ' ' || c = '\t' || c = '\n' || c = '\r' || c = '\x0b' || c = '\x0c'

/-- Character class `[\s:]` of the regex at line 51. -/
def isSepChar (c : Char) : Bool := isWsChar c || c = ':'

/-- `int()` of a non-empty digit run, as produced by the capture `(\d+)`. -/
def digitsVal (ds : List Char) : Nat :=
  ds.foldl (fun n c => n * 10 + (c.toNat - '0'.toNat)) 0

/-- The optional non-capturing suffix `(?:\s*\(\d+%\))?` of the regex at
line 51: consume a parenthesized percentage if one follows, otherwise
consume nothing.  Greedy sub-pieces need no backtracking because the
character classes involved are pairwise disjoint. -/
def skipPercent (cs : List Char) : List Char :=
  match cs.dropWhile isWsChar with
  | '(' :: r1 =>
    if (r1.takeWhile isDigit09).isEmpty then cs
    else
      match r1.dropWhile isDigit09 with
      | '%' :: ')' :: r2 => r2
      | _ => cs
  | _ => cs

/-- One anchored attempt of the regex `([A-Z]{2})[\s:]+(\d+)(?:\s*\(\d+%\))?`
at the head of the character list: two uppercase letters, at least one
separator, a maximal digit run, then the optional percentage suffix.
Returns the two captures and the remainder of the input after the match.
Greediness is exact: `[\s:]+`, `(\d+)` and the optional group never need
to backtrack since separator, digit and suffix alphabets are disjoint and
the optional group may match empty. -/
def matchAt : List Char → Option (String × Nat × List Char)
  | c1 :: c2 :: rest =>
    if isUpperAZ c1 && isUpperAZ c2 then
      if (rest.takeWhile isSepChar).isEmpty then none
      else
        let r2 := rest.dropWhile isSepChar
        let ds := r2.takeWhile isDigit09
        if ds.isEmpty then none
        else some (String.mk [c1, c2], digitsVal ds, skipPercent (r2.dropWhile isDigit09))
    else none
  | _ => none

/-- `re.findall(pattern, content_html)` (src/bot.py line 52): scan left to
right for non-overlapping matches, resuming after each match.  The fuel
argument (initially the input length) dominates the number of scan steps,
since every step consumes at least one character. -/
def findAux : Nat → List Char → List (String × Nat)
  | 0, _ => []
  | _ + 1, [] => []
  | fuel + 1, c :: cs =>
    match matchAt (c :: cs) with
    | some (code, v, rest) => (code, v) :: findAux fuel rest
    | none => findAux fuel cs

/-- All `(code, value)` capture pairs found in a content string. -/
def findMatches (s : String) : List (String × Nat) :=
  findAux s.data.length s.data

/-- The loop body at src/bot.py lines 64-69: replace the running best only
on a strictly greater value (so the first maximum encountered is kept). -/
def pickHigher (acc : Option String × Nat) (m : String × Nat) :
    Option String × Nat :=
  if m.2 > acc.2 then (some m.1, m.2) else acc

/-- The fold at src/bot.py lines 60-69: running best over all matches,
starting from `highest_value = 0`, `highest_stat = None`. -/
def highestOf (ms : List (String × Nat)) : Option String × Nat :=
  ms.foldl pickHigher (none, 0)

/-- `parse_resource_values` (src/bot.py lines 32-76).  Returns the pair
`(highest_stat, highest_value)` with Python's `None` rendered as `none`:
no content attribute or empty content list gives `(None, None)` (line 37),
empty content HTML gives `(None, None)` (line 42), no regex match gives
`(None, None)` (line 58), otherwise the fold result with its value
wrapped in `some`.  The function is total: the `except` handler at
lines 74-76 has no reachable counterpart here. -/
def parse_resource_values (e : Entry) : Option String × Option Nat :=
  match e.content with
  | none => (none, none)
  | some s =>
    if s = "" then (none, none)
    else if (findMatches s).isEmpty then (none, none)
    else ((highestOf (findMatches s)).1, some (highestOf (findMatches s)).2)

/-- The largest value among the found matches (with `0` for no matches):
the reference quantity the maximum-rule of the spec speaks about. -/
def maxVal (ms : List (String × Nat)) : Nat :=
  ms.foldr (fun m n => max m.2 n) 0

/-- The guard at src/bot.py line 148: `if highest_stat and highest_value:`
decides whether the extra "Highest value" message is sent.  Python
truthiness makes `None`, the empty string and `0` all falsy. -/
def sendsStatMsg (e : Entry) : Bool :=
  match parse_resource_values e with
  | (some st, some v) => (!st.isEmpty) && (v != 0)
  | _ => false

/- ---------- the per-tick pipeline (src/bot.py lines 92-163) ---------- -/

/-- `str.lower()` on the character sequence of a string. -/
def lowered (s : String) : List Char := s.data.map Char.toLower

/-- `TARGET_SERVER_NAME.lower() in entry.title.lower()` (line 117):
Python substring membership is contiguous-infix containment. -/
def titleMatches (e : Entry) : Bool :=
  decide (lowered TARGET_SERVER_NAME <:+: lowered e.title)

/-- The staging loop at src/bot.py lines 113-118: an entry becomes a
notification candidate when its guid is not yet seen and its title
matches the target server name.  The seen list is not updated inside
this loop; recording happens afterwards (lines 120-123). -/
def stageCandidates (seen : List String) (entries : List Entry) : List Entry :=
  entries.filter (fun e => decide (entryGuid e ∉ seen) && titleMatches e)

/-- The recording loop at src/bot.py lines 120-123: append every guid of
the current fetch that is not already present, in fetch order. -/
def recordGuids (seen : List String) : List String → List String
  | [] => seen
  | g :: gs => recordGuids (if g ∈ seen then seen else seen ++ [g]) gs

/-- The trim at src/bot.py lines 160-163: `seen_entry_guids[-MAX_SEEN_ENTRIES:]`
when the list has grown past the capacity, i.e. drop the oldest entries. -/
def trimSeen (seen : List String) : List String :=
  if MAX_SEEN_ENTRIES < seen.length then
    seen.drop (seen.length - MAX_SEEN_ENTRIES)
  else seen

/-- The timestamp `get_sort_key` consults (src/bot.py line 129):
`e.get("published_parsed") or e.get("updated_parsed")`. -/
def publishedAt (e : Entry) : Option Nat :=
  e.published_parsed.orElse (fun _ => e.updated_parsed)

/-- `get_sort_key` (src/bot.py lines 128-135): the entry's timestamp, or
the `datetime.min` sentinel (modelled as `0`) when both date fields are
absent. -/
def get_sort_key (e : Entry) : Nat := (publishedAt e).getD 0

/-- The comparison `sorted` uses at src/bot.py line 137. -/
def dateLe (a b : Entry) : Prop := get_sort_key a ≤ get_sort_key b

instance : DecidableRel dateLe := fun _ _ => Nat.decLe _ _

instance : IsTotal Entry dateLe := ⟨fun _ _ => Nat.le_total _ _⟩

instance : IsTrans Entry dateLe := ⟨fun _ _ _ => Nat.le_trans⟩

/-- `sorted(new_entries_to_post, key=get_sort_key)` (src/bot.py line 137).
Python's `sorted` is the stable ascending sort by the key; stable
insertion sort computes exactly that list. -/
def sortByDate (l : List Entry) : List Entry := List.insertionSort dateLe l

/-- Outcome of the `channel.send` calls for one candidate (lines 144-156):
success, `discord.HTTPException` (transient, logged, loop continues) or
`discord.Forbidden` (permission denied, loop breaks). -/
inductive SendOutcome where
  | ok
  | transient
  | forbidden
deriving DecidableEq

/-- The delivery loop at src/bot.py lines 137-156, driven by an outcome
oracle `f`.  Returns the list of candidates for which a delivery was
attempted, in order: `forbidden` breaks out of the loop after the failing
candidate, every other outcome proceeds to the next candidate. -/
def deliverAll (f : Entry → SendOutcome) : List Entry → List Entry
  | [] => []
  | e :: rest =>
    match f e with
    | .forbidden => [e]
    | _ => e :: deliverAll f rest

/-- Result of one tick: the candidates whose delivery was attempted, and
the seen list at the end of the tick. -/
structure TickResult where
  attempted : List Entry
  seen : List String
deriving DecidableEq

/-- One successful sweep of `fetch_rss_feed_task` (src/bot.py lines
113-163) over an already fetched and parsed entry list: stage the unseen
matching entries (113-118), record every fetched guid (120-123), deliver
the staged candidates in date order (137-156), trim the seen list
(160-163).  The delivery oracle `f` supplies the outcome of the sends. -/
def tick (f : Entry → SendOutcome) (seen : List String) (entries : List Entry) :
    TickResult :=
  { attempted := deliverAll f (sortByDate (stageCandidates seen entries)),
    seen := trimSeen (recordGuids seen (entries.map entryGuid)) }

/-- The initial value of the global `seen_entry_guids` (src/bot.py line 30). -/
def initialSeen : List String := []

/-- The before-loop hook at src/bot.py lines 170-175: it waits for the
bot to become ready and deliberately leaves `seen_entry_guids` untouched
("We leave seen_entry_guids empty so it 'catches' current feed items"). -/
def before_fetch_rss_feed_task (seen : List String) : List String := seen

/- ---------- spec-side comparison definition ---------- -/

/-- First non-empty string in a prioritized list of optional fields. -/
def firstNonEmpty : List (Option String) → Option String
  | [] => none
  | none :: rest => firstNonEmpty rest
  | some s :: rest => if s = "" then firstNonEmpty rest else some s

/-- Extractor as §4.2 of the spec words it ("prefer a structured
'content' field; fall back to 'summary', then 'description', in that
priority order — first non-empty wins"), for comparison with
`parse_resource_values`, which reads only `content`. -/
def parse_resource_values_spec (e : Entry) : Option String × Option Nat :=
  match firstNonEmpty [e.content, e.summary, e.description] with
  | none => (none, none)
  | some s =>
    if (findMatches s).isEmpty then (none, none)
    else ((highestOf (findMatches s)).1, some (highestOf (findMatches s)).2)

/- ---------- concrete fixtures used by witnesses and counterexamples ---------- -/

/-- An entry with every optional field absent and empty strings elsewhere. -/
def baseE : Entry :=
  { rawGuid := none, title := "", link := "", published_parsed := none,
    updated_parsed := none, content := none, summary := none, description := none }

/-- Entry whose content is the spec's worked extractor example. -/
def eDR : Entry := { baseE with content := some "DR: 780 (78%) PE 950" }

/-- Entry whose content is the spec's tie-break extractor example. -/
def eOQ2 : Entry := { baseE with content := some "OQ 500 OQ 300" }

/-- Entry whose content holds a single zero-valued stat token. -/
def eOQ0 : Entry := { baseE with content := some "OQ 0" }

/-- Entry whose content holds only zero-valued stat tokens. -/
def eZeros : Entry := { baseE with content := some "OQ 0 PE 0" }

/-- Entry whose content holds no stat-shaped token. -/
def eNoTok : Entry := { baseE with content := some "no stats in here" }

/-- Entry with no content but a stat-bearing summary. -/
def eC2 : Entry := { baseE with summary := some "PE 950" }

/-- Entry with no content and no summary. -/
def eC2b : Entry := { baseE with link := "elsewhere" }

/-- Entry with an empty content string. -/
def eEmptyC : Entry := { baseE with content := some "" }

/-- A matching dated entry for the cold-start fixtures. -/
def eM1 : Entry :=
  { baseE with
    rawGuid := some "m1", title := "SWG Infinity rx", published_parsed := some 7 }

/-- A non-matching entry for the cold-start fixtures. -/
def eNM : Entry :=
  { baseE with rawGuid := some "n1", title := "some other shard" }

/-- A matching entry whose guid "a" is used by the seen-set fixtures. -/
def eA : Entry :=
  { baseE with rawGuid := some "a", title := "SWG Infinity ra" }

/-- An entry with guid "b". -/
def eB : Entry := { baseE with rawGuid := some "b", title := "elsewhere" }

/-- Entry with guid "c". -/
def eGc : Entry := { baseE with rawGuid := some "c", title := "third" }

/-- Delivery oracle that fails fatally exactly on guid "b" and
transiently everywhere else. -/
def fW (e : Entry) : SendOutcome :=
  if entryGuid e = "b" then SendOutcome.forbidden else SendOutcome.transient

/-- Matching entry numbered `i`, dated `i + 1`: the cold-start feed item. -/
def mkMatch (i : Nat) : Entry :=
  { baseE with
    rawGuid := some (toString i),
    title := "SWG Infinity resource",
    published_parsed := some (i + 1) }

/-- A cold-start feed holding ten matching items. -/
def feedC1 : List Entry := (List.range 10).map mkMatch

/-- Feed item `i` for the eviction scenario: item `0` matches the target
name, the remaining 200 do not. -/
def mkC9 (i : Nat) : Entry :=
  { baseE with
    rawGuid := some (toString i),
    title := (if i = 0 then "SWG Infinity resource" else "other"),
    published_parsed := some (i + 1) }

/-- A feed one item larger than the seen-set capacity. -/
def feedC9 : List Entry := (List.range (MAX_SEEN_ENTRIES + 1)).map mkC9

/-- Two hundred distinct guids "1".."200": the tail of a capacity-plus-one
insertion batch headed by "0". -/
def restW : List String := (List.range MAX_SEEN_ENTRIES).map (fun n => toString (n + 1))

/-- Dated entries for the ordering fixtures. -/
def eT1 : Entry :=
  { baseE with rawGuid := some "t1", title := "SWG Infinity 1", published_parsed := some 1 }

/-- Entry dated `2`. -/
def eT2 : Entry :=
  { baseE with rawGuid := some "t2", title := "SWG Infinity 2", published_parsed := some 2 }

/-- Entry dated `3`. -/
def eT3 : Entry :=
  { baseE with rawGuid := some "t3", title := "SWG Infinity 3", published_parsed := some 3 }

/-- A dated entry for the absent-date fixture. -/
def eDated : Entry :=
  { baseE with rawGuid := some "d1", title := "SWG Infinity d", published_parsed := some 5 }

/-- An entry with both date fields absent. -/
def eUndated : Entry :=
  { baseE with rawGuid := some "d0", title := "SWG Infinity u" }

/-- Two entries sharing the timestamp `7`, to observe the tie-break. -/
def eTieA : Entry :=
  { baseE with rawGuid := some "ta", title := "SWG Infinity a", updated_parsed := some 7 }

/-- Second entry with timestamp `7`, discovered after `eTieA`. -/
def eTieB : Entry :=
  { baseE with rawGuid := some "tb", title := "SWG Infinity b", published_parsed := some 7 }

/- ---------- helper lemmas about the seen list ---------- -/

/-- Recording never removes a guid that is already present. -/
theorem mem_recordGuids_left (gs : List String) :
    ∀ (seen : List String) (g : String), g ∈ seen → g ∈ recordGuids seen gs := by
  induction gs with
  | nil => intro seen g h; exact h
  | cons a tl ih =>
    intro seen g h
    rw [recordGuids]
    by_cases ha : a ∈ seen
    · rw [if_pos ha]; exact ih seen g h
    · rw [if_neg ha]; exact ih _ g (List.mem_append_left _ h)

/-- Every guid of the recorded batch is present after recording. -/
theorem mem_recordGuids_right (gs : List String) :
    ∀ (seen : List String) (g : String), g ∈ gs → g ∈ recordGuids seen gs := by
  induction gs with
  | nil => intro seen g h; cases h
  | cons a tl ih =>
    intro seen g h
    rw [recordGuids]
    rcases List.mem_cons.mp h with rfl | htl
    · by_cases ha : g ∈ seen
      · rw [if_pos ha]
        exact mem_recordGuids_left tl seen g ha
      · rw [if_neg ha]
        exact mem_recordGuids_left tl _ g (by simp)
    · by_cases ha : a ∈ seen
      · rw [if_pos ha]; exact ih seen g htl
      · rw [if_neg ha]; exact ih _ g htl

/-- Recording preserves distinctness of the seen list. -/
theorem nodup_recordGuids (gs : List String) :
    ∀ seen : List String, seen.Nodup → (recordGuids seen gs).Nodup := by
  induction gs with
  | nil => intro seen h; exact h
  | cons a tl ih =>
    intro seen h
    rw [recordGuids]
    by_cases ha : a ∈ seen
    · rw [if_pos ha]; exact ih seen h
    · rw [if_neg ha]
      refine ih _ ?_
      refine List.Nodup.append h (List.nodup_singleton a) ?_
      intro x hx hxa
      rcases List.mem_singleton.mp hxa with rfl
      exact ha hx

/-- Recording a batch of fresh, distinct guids appends it verbatim. -/
theorem recordGuids_fresh (gs : List String) :
    ∀ seen : List String, gs.Nodup → (∀ g ∈ gs, g ∉ seen) →
      recordGuids seen gs = seen ++ gs := by
  induction gs with
  | nil => intro seen _ _; simp [recordGuids]
  | cons a tl ih =>
    intro seen hnd hfresh
    rw [recordGuids, if_neg (hfresh a (by simp))]
    rw [ih (seen ++ [a]) (List.Nodup.of_cons hnd)]
    · simp
    · intro g hg hmem
      rcases List.mem_append.mp hmem with hs | hsa
      · exact hfresh g (List.mem_cons_of_mem a hg) hs
      · rcases List.mem_singleton.mp hsa with rfl
        exact (List.nodup_cons.mp hnd).1 hg

/-- Recording adds at most the batch size to the seen list. -/
theorem length_recordGuids_le (gs : List String) :
    ∀ seen : List String, (recordGuids seen gs).length ≤ seen.length + gs.length := by
  induction gs with
  | nil => intro seen; simp [recordGuids]
  | cons a tl ih =>
    intro seen
    rw [recordGuids]
    by_cases ha : a ∈ seen
    · rw [if_pos ha]
      calc (recordGuids seen tl).length ≤ seen.length + tl.length := ih seen
        _ ≤ seen.length + (a :: tl).length := by simp
    · rw [if_neg ha]
      calc (recordGuids (seen ++ [a]) tl).length
          ≤ (seen ++ [a]).length + tl.length := ih _
        _ = seen.length + (a :: tl).length := by simp [Nat.add_comm, Nat.add_assoc, Nat.add_left_comm]

/-- Trimming is the identity while the capacity is not exceeded. -/
theorem trimSeen_of_le (seen : List String) (h : seen.length ≤ MAX_SEEN_ENTRIES) :
    trimSeen seen = seen := by
  rw [trimSeen, if_neg (by omega)]

/-- Trimming preserves distinctness: the result is a sublist. -/
theorem nodup_trimSeen (seen : List String) (h : seen.Nodup) :
    (trimSeen seen).Nodup := by
  rw [trimSeen]
  by_cases hl : MAX_SEEN_ENTRIES < seen.length
  · rw [if_pos hl]
    exact List.Nodup.sublist (List.drop_sublist _ _) h
  · rw [if_neg hl]; exact h

/- ---------- helper lemmas about staging ---------- -/

/-- An entry whose guid is already seen is never staged. -/
theorem not_staged_of_seen (seen : List String) (entries : List Entry)
    (e : Entry) (h : entryGuid e ∈ seen) : e ∉ stageCandidates seen entries := by
  intro hmem
  have := (List.mem_filter.mp hmem).2
  rw [Bool.and_eq_true, decide_eq_true_iff] at this
  exact this.1 h

/-- On an empty seen list, staging is exactly the title filter. -/
theorem stageCandidates_nil (entries : List Entry) :
    stageCandidates [] entries = entries.filter titleMatches := by
  rw [stageCandidates]
  apply List.filter_congr
  intro e _
  simp

/-- Staging yields nothing when every incoming guid is already seen. -/
theorem stageCandidates_eq_nil (seen : List String) (entries : List Entry)
    (h : ∀ e ∈ entries, entryGuid e ∈ seen) :
    stageCandidates seen entries = [] := by
  rw [stageCandidates, List.filter_eq_nil_iff]
  intro e he
  rw [Bool.and_eq_true, decide_eq_true_iff]
  intro hcon
  exact hcon.1 (h e he)

/- ---------- helper lemmas about the extractor fold ---------- -/

/-- Unfolding of `maxVal` over a cons. -/
theorem maxVal_cons (m : String × Nat) (tl : List (String × Nat)) :
    maxVal (m :: tl) = max m.2 (maxVal tl) := rfl

/-- A best value at least the batch maximum is never replaced by the fold. -/
theorem foldl_pickHigher_ge (ms : List (String × Nat)) :
    ∀ a : Option String × Nat, maxVal ms ≤ a.2 → ms.foldl pickHigher a = a := by
  induction ms with
  | nil => intro a _; rfl
  | cons m tl ih =>
    intro a h
    rw [maxVal_cons] at h
    have hm : m.2 ≤ a.2 := le_trans (le_max_left _ _) h
    have ht : maxVal tl ≤ a.2 := le_trans (le_max_right _ _) h
    have hstep : pickHigher a m = a := by
      rw [pickHigher, if_neg (by omega)]
    rw [List.foldl_cons, hstep]
    exact ih a ht

/-- When the batch maximum beats the running best, the fold returns the
first match attaining the batch maximum. -/
theorem foldl_pickHigher_lt (ms : List (String × Nat)) :
    ∀ a : Option String × Nat, a.2 < maxVal ms →
      ∃ w, ms.find? (fun m => m.2 == maxVal ms) = some w ∧
        w.2 = maxVal ms ∧ ms.foldl pickHigher a = (some w.1, w.2) := by
  induction ms with
  | nil =>
    intro a h
    exact absurd h (by simp [maxVal])
  | cons m tl ih =>
    intro a h
    by_cases hup : m.2 > a.2
    · have hstep : pickHigher a m = (some m.1, m.2) := by
        rw [pickHigher, if_pos hup]
      by_cases hrest : maxVal tl ≤ m.2
      · have hmax : maxVal (m :: tl) = m.2 := by
          rw [maxVal_cons]; omega
        refine ⟨m, ?_, hmax.symm, ?_⟩
        · rw [List.find?_cons_of_pos _ (by simp [hmax])]
        · rw [List.foldl_cons, hstep, foldl_pickHigher_ge tl _ hrest]
      · push_neg at hrest
        have hmax : maxVal (m :: tl) = maxVal tl := by
          rw [maxVal_cons]; omega
        obtain ⟨w, hfind, hw, hfold⟩ := ih (some m.1, m.2) hrest
        refine ⟨w, ?_, ?_, ?_⟩
        · rw [hmax, List.find?_cons_of_neg _ (by simp; omega)]
          exact hfind
        · rw [hmax]; exact hw
        · rw [List.foldl_cons, hstep]; exact hfold
    · push_neg at hup
      have hstep : pickHigher a m = a := by
        rw [pickHigher, if_neg (by omega)]
      have hX : a.2 < maxVal tl := by
        rcases Nat.le_total (maxVal tl) m.2 with hc | hc
        · rw [maxVal_cons, Nat.max_eq_left hc] at h; omega
        · rw [maxVal_cons, Nat.max_eq_right hc] at h; exact h
      have hmax : maxVal (m :: tl) = maxVal tl := by
        rw [maxVal_cons]; exact Nat.max_eq_right (by omega)
      obtain ⟨w, hfind, hw, hfold⟩ := ih a hX
      refine ⟨w, ?_, ?_, ?_⟩
      · rw [hmax, List.find?_cons_of_neg _ (by simp; omega)]
        exact hfind
      · rw [hmax]; exact hw
      · rw [List.foldl_cons, hstep]; exact hfold

/-- The fold of src/bot.py lines 60-69 computes the first match attaining
the maximum value, whenever that maximum is positive. -/
theorem highestOf_eq_first_max (ms : List (String × Nat)) (h : 0 < maxVal ms) :
    ∃ w, ms.find? (fun m => m.2 == maxVal ms) = some w ∧
      w.2 = maxVal ms ∧ highestOf ms = (some w.1, w.2) :=
  foldl_pickHigher_lt ms (none, 0) h

/-- A batch of all-zero values has maximum zero. -/
theorem maxVal_of_all_zero (ms : List (String × Nat))
    (h : ∀ m ∈ ms, m.2 = 0) : maxVal ms = 0 := by
  induction ms with
  | nil => rfl
  | cons m tl ih =>
    rw [maxVal_cons, h m (by simp), ih fun x hx => h x (List.mem_cons_of_mem m hx)]
    simp

/-- On all-zero matches the fold keeps its initial state: no stat code. -/
theorem highestOf_of_all_zero (ms : List (String × Nat))
    (h : ∀ m ∈ ms, m.2 = 0) : highestOf ms = (none, 0) :=
  foldl_pickHigher_ge ms (none, 0) (by rw [maxVal_of_all_zero ms h])

/-- Rewriting form of the extractor for an entry with present content. -/
theorem parse_content_some (e : Entry) (s : String) (hc : e.content = some s) :
    parse_resource_values e =
      (if s = "" then (none, none)
       else if (findMatches s).isEmpty then (none, none)
       else ((highestOf (findMatches s)).1, some (highestOf (findMatches s)).2)) := by
  rw [parse_resource_values, hc]

/-- Rewriting form of the extractor for an entry without content. -/
theorem parse_content_none (e : Entry) (hc : e.content = none) :
    parse_resource_values e = (none, none) := by
  rw [parse_resource_values, hc]

/- ---------- helper lemmas about delivery ---------- -/

/-- Without a fatal failure, every candidate gets a delivery attempt:
transient failures do not stop the loop. -/
theorem deliverAll_no_forbidden (f : Entry → SendOutcome) :
    ∀ l : List Entry, (∀ e ∈ l, f e ≠ SendOutcome.forbidden) →
      deliverAll f l = l := by
  intro l
  induction l with
  | nil => intro _; rfl
  | cons e tl ih =>
    intro h
    rw [deliverAll]
    cases hf : f e with
    | forbidden => exact absurd hf (h e (by simp))
    | ok => rw [ih fun x hx => h x (List.mem_cons_of_mem e hx)]
    | transient => rw [ih fun x hx => h x (List.mem_cons_of_mem e hx)]

/-- The all-success oracle attempts every candidate. -/
theorem deliverAll_ok (l : List Entry) :
    deliverAll (fun _ => SendOutcome.ok) l = l :=
  deliverAll_no_forbidden _ l (by intro e _; simp)

/-- A fatal failure truncates the loop right after the failing candidate. -/
theorem deliverAll_break (f : Entry → SendOutcome) (e : Entry)
    (hfat : f e = SendOutcome.forbidden) :
    ∀ l1 l2 : List Entry, (∀ x ∈ l1, f x ≠ SendOutcome.forbidden) →
      deliverAll f (l1 ++ e :: l2) = l1 ++ [e] := by
  intro l1
  induction l1 with
  | nil =>
    intro l2 _
    simp only [List.nil_append]
    rw [deliverAll, hfat]
  | cons x tl ih =>
    intro l2 h
    rw [List.cons_append, deliverAll]
    cases hf : f x with
    | forbidden => exact absurd hf (h x (by simp))
    | ok => rw [ih l2 fun y hy => h y (List.mem_cons_of_mem x hy)]; rfl
    | transient => rw [ih l2 fun y hy => h y (List.mem_cons_of_mem x hy)]; rfl

/-- Delivery attempts are an order-preserving front of the candidate list. -/
theorem deliverAll_front (f : Entry → SendOutcome) :
    ∀ l : List Entry, ∃ rest, l = deliverAll f l ++ rest := by
  intro l
  induction l with
  | nil => exact ⟨[], rfl⟩
  | cons e tl ih =>
    obtain ⟨rest, hrest⟩ := ih
    rw [deliverAll]
    cases f e with
    | forbidden => exact ⟨tl, by simp⟩
    | ok => exact ⟨rest, by simpa using hrest⟩
    | transient => exact ⟨rest, by simpa using hrest⟩

/- ---------- claim C1 ---------- -/

/-- Claim C1, counterexample: there is no startup replay.  The before-loop
hook leaves the seen list empty, so nothing is marked seen before the
first tick, and a cold start over a feed of ten matching items attempts
all ten deliveries on the first tick rather than only the last
K = 5 the spec's replay policy prescribes. -/
theorem startup_no_batch_cex :
    before_fetch_rss_feed_task initialSeen = ([] : List String) ∧
    ((tick (fun _ => SendOutcome.ok) initialSeen feedC1).attempted).length = 10 := by
  constructor
  · rfl
  · decide

/-- Claim C1, amended: the code has no startup replay batch limit.  The
pre-loop hook leaves the Seen-Set empty, so the first regular tick of a
cold start delivers ALL matching items, sorted oldest-to-newest by
`get_sort_key`, while marking every fetched item (matching or not) as
seen; a subsequent tick over the same feed content stages zero new
items. -/
theorem cold_start_behavior (f : Entry → SendOutcome) (entries : List Entry)
    (hlen : entries.length ≤ MAX_SEEN_ENTRIES) :
    before_fetch_rss_feed_task initialSeen = initialSeen ∧
    (tick f initialSeen entries).attempted
      = deliverAll f (sortByDate (entries.filter titleMatches)) ∧
    stageCandidates (tick f initialSeen entries).seen entries = [] := by
  refine ⟨rfl, ?_, ?_⟩
  · show deliverAll f (sortByDate (stageCandidates initialSeen entries)) = _
    rw [show initialSeen = [] from rfl, stageCandidates_nil entries]
  · apply stageCandidates_eq_nil
    intro e he
    show entryGuid e ∈ trimSeen (recordGuids initialSeen (entries.map entryGuid))
    rw [trimSeen_of_le]
    · exact mem_recordGuids_right _ _ _ (List.mem_map_of_mem entryGuid he)
    · calc (recordGuids initialSeen (entries.map entryGuid)).length
          ≤ initialSeen.length + (entries.map entryGuid).length :=
            length_recordGuids_le _ initialSeen
        _ = entries.length := by simp [initialSeen]
        _ ≤ MAX_SEEN_ENTRIES := hlen

/-- Claim C1, witness: the amended cold-start behavior evaluated on a
two-item feed with one matching and one non-matching entry. -/
theorem cold_start_behavior_w :
    ([eM1, eNM] : List Entry).length ≤ MAX_SEEN_ENTRIES ∧
    (before_fetch_rss_feed_task initialSeen = initialSeen ∧
     (tick (fun _ => SendOutcome.ok) initialSeen [eM1, eNM]).attempted
       = deliverAll (fun _ => SendOutcome.ok)
           (sortByDate ([eM1, eNM].filter titleMatches)) ∧
     stageCandidates (tick (fun _ => SendOutcome.ok) initialSeen [eM1, eNM]).seen
       [eM1, eNM] = []) :=
  ⟨by decide, cold_start_behavior (fun _ => SendOutcome.ok) [eM1, eNM] (by decide)⟩

/- ---------- claim C2 ---------- -/

/-- Claim C2, counterexample: the code never falls back to `summary` or
`description`.  On an entry with no content but a stat-bearing summary
the extractor returns no stat, while the spec's fallback chain would
return PE 950. -/
theorem content_fallback_cex :
    parse_resource_values eC2 = (none, none) ∧
    parse_resource_values_spec eC2 = (some "PE", some 950) := by
  constructor
  · rfl
  · decide

/-- Claim C2, amended: the extractor reads only the `content` field.
Absent or empty content yields "no stat found" without consulting
`summary` or `description`, and the result depends on the `content`
field alone. -/
theorem extractor_only_content (e e2 : Entry) :
    (e.content = none → parse_resource_values e = (none, none)) ∧
    (e.content = some "" → parse_resource_values e = (none, none)) ∧
    (e.content = e2.content → parse_resource_values e = parse_resource_values e2) := by
  refine ⟨fun h => parse_content_none e h, fun h => ?_, fun h => ?_⟩
  · rw [parse_content_some e "" h, if_pos rfl]
  · unfold parse_resource_values
    rw [h]

/-- Claim C2, witness: the amended content-only behavior evaluated on the
summary-bearing entry and on an entry with an empty content string. -/
theorem extractor_only_content_w :
    eC2.content = none ∧ parse_resource_values eC2 = (none, none) ∧
    eEmptyC.content = some "" ∧ parse_resource_values eEmptyC = (none, none) ∧
    eC2.content = eC2b.content ∧
    parse_resource_values eC2 = parse_resource_values eC2b :=
  ⟨rfl, (extractor_only_content eC2 eC2b).1 rfl, rfl,
   (extractor_only_content eEmptyC eC2b).2.1 rfl, rfl,
   (extractor_only_content eC2 eC2b).2.2 rfl⟩

/- ---------- claim C3 ---------- -/

/-- Claim C3, counterexample: content "OQ 0" contains a stat-shaped token,
yet the extractor does not return that maximal match — it reports no stat
code, because the fold's running maximum starts at 0 with a strict
comparison. -/
theorem max_rule_zero_cex :
    findMatches "OQ 0" = [("OQ", 0)] ∧
    parse_resource_values eOQ0 = (none, some 0) := by
  constructor
  · decide
  · decide

/-- Claim C3, amended: for content whose maximum token value is positive,
the extractor returns the first-encountered match attaining that maximum
(first match wins on ties); the spec's worked examples evaluate as
stated, and token-free content yields no stat.  (When every token value
is 0 the extractor reports no stat instead of the maximal match.) -/
theorem max_rule_first_max (e : Entry) (s : String) (hc : e.content = some s)
    (hs : s ≠ "") (hpos : 0 < maxVal (findMatches s)) :
    parse_resource_values e =
      (((findMatches s).find? (fun m => m.2 == maxVal (findMatches s))).map Prod.fst,
       ((findMatches s).find? (fun m => m.2 == maxVal (findMatches s))).map Prod.snd) ∧
    parse_resource_values eDR = (some "PE", some 950) ∧
    parse_resource_values eOQ2 = (some "OQ", some 500) ∧
    parse_resource_values eNoTok = (none, none) := by
  obtain ⟨w, hfind, hw, hfold⟩ := highestOf_eq_first_max (findMatches s) hpos
  have hne : (findMatches s).isEmpty = false := by
    cases hms : findMatches s with
    | nil => rw [hms] at hfind; simp at hfind
    | cons a tl => rfl
  refine ⟨?_, by decide, by decide, by decide⟩
  rw [parse_content_some e s hc, if_neg hs, if_neg (by simp [hne]), hfold, hfind]
  simp

/-- Claim C3, witness: the amended maximum rule evaluated on the spec's
worked example content. -/
theorem max_rule_first_max_w :
    eDR.content = some "DR: 780 (78%) PE 950" ∧
    ("DR: 780 (78%) PE 950" ≠ "") ∧
    0 < maxVal (findMatches "DR: 780 (78%) PE 950") ∧
    parse_resource_values eDR =
      (((findMatches "DR: 780 (78%) PE 950").find?
          (fun m => m.2 == maxVal (findMatches "DR: 780 (78%) PE 950"))).map Prod.fst,
       ((findMatches "DR: 780 (78%) PE 950").find?
          (fun m => m.2 == maxVal (findMatches "DR: 780 (78%) PE 950"))).map Prod.snd) :=
  ⟨rfl, by decide, by decide,
   (max_rule_first_max eDR _ rfl (by decide) (by decide)).1⟩

/- ---------- claim C4 ---------- -/

/-- Claim C4: every item returned by the fetch, matching or not, has its
guid recorded in the seen list during the tick; a recorded guid stays
recorded through later recordings, and while a guid is in the seen list
the entry is never staged as a notification candidate. -/
theorem seen_marks_all_blocks_restage (seen : List String) (entries : List Entry)
    (e : Entry) :
    (e ∈ entries → entryGuid e ∈ recordGuids seen (entries.map entryGuid)) ∧
    (entryGuid e ∈ seen → entryGuid e ∈ recordGuids seen (entries.map entryGuid)) ∧
    (entryGuid e ∈ seen → e ∉ stageCandidates seen entries) :=
  ⟨fun h => mem_recordGuids_right _ _ _ (List.mem_map_of_mem entryGuid h),
   fun h => mem_recordGuids_left _ _ _ h,
   fun h => not_staged_of_seen _ _ _ h⟩

/-- Claim C4, witness: the recording and staging facts evaluated at a
non-matching seen list, a singleton fetch and a pre-seen guid. -/
theorem seen_marks_all_blocks_restage_w :
    eA ∈ [eA] ∧ entryGuid eA ∈ recordGuids ["z"] ([eA].map entryGuid) ∧
    entryGuid eA ∈ ["a"] ∧ entryGuid eA ∈ recordGuids ["a"] ([eB].map entryGuid) ∧
    eA ∉ stageCandidates ["a"] [eA] :=
  ⟨by decide, (seen_marks_all_blocks_restage ["z"] [eA] eA).1 (by decide), by decide,
   (seen_marks_all_blocks_restage ["a"] [eB] eA).2.1 (by decide),
   (seen_marks_all_blocks_restage ["a"] [eA] eA).2.2 (by decide)⟩

/- ---------- claim C5 ---------- -/

/-- Claim C5: the seen list starts duplicate-free and every tick keeps it
duplicate-free, and eviction is strictly FIFO: recording a batch of
capacity-plus-one distinct guids into an empty seen list leaves exactly
the oldest guid absent and all two hundred others present after the trim. -/
theorem seen_nodup_fifo :
    List.Nodup initialSeen ∧
    (∀ (f : Entry → SendOutcome) (seen : List String) (entries : List Entry),
      seen.Nodup → ((tick f seen entries).seen).Nodup) ∧
    (∀ (g : String) (gs : List String), (g :: gs).Nodup →
      (g :: gs).length = MAX_SEEN_ENTRIES + 1 →
      g ∉ trimSeen (recordGuids [] (g :: gs)) ∧
      ∀ x ∈ gs, x ∈ trimSeen (recordGuids [] (g :: gs))) := by
  refine ⟨List.nodup_nil, fun f seen entries h => ?_, fun g gs hnd hlen => ?_⟩
  · exact nodup_trimSeen _ (nodup_recordGuids _ _ h)
  · have hrec : recordGuids [] (g :: gs) = g :: gs := by
      have hfr := recordGuids_fresh (g :: gs) [] hnd
        (by intro x _ hx; cases hx)
      simpa using hfr
    have htrim : trimSeen (g :: gs) = gs := by
      rw [trimSeen, if_pos (by rw [hlen]; omega), hlen, Nat.add_sub_cancel_left,
        List.drop_one, List.tail_cons]
    rw [hrec, htrim]
    exact ⟨(List.nodup_cons.mp hnd).1, fun x hx => hx⟩

/-- Claim C5, witness: the FIFO eviction fact evaluated on the concrete
batch "0", "1", ..., "200" of 201 distinct guids, and the per-tick
distinctness fact evaluated on a singleton tick. -/
theorem seen_nodup_fifo_w :
    List.Nodup ("0" :: restW) ∧ ("0" :: restW).length = MAX_SEEN_ENTRIES + 1 ∧
    "0" ∉ trimSeen (recordGuids [] ("0" :: restW)) ∧
    "1" ∈ restW ∧ "1" ∈ trimSeen (recordGuids [] ("0" :: restW)) ∧
    List.Nodup ["s"] ∧
    List.Nodup ((tick (fun _ => SendOutcome.ok) ["s"] [eA]).seen) := by
  have h1 : List.Nodup ("0" :: restW) := by decide
  have h2 : ("0" :: restW).length = MAX_SEEN_ENTRIES + 1 := by decide
  exact ⟨h1, h2, (seen_nodup_fifo.2.2 "0" restW h1 h2).1, by decide,
    (seen_nodup_fifo.2.2 "0" restW h1 h2).2 "1" (by decide),
    by decide, seen_nodup_fifo.2.1 (fun _ => SendOutcome.ok) ["s"] [eA] (by decide)⟩

/- ---------- claim C6 ---------- -/

/-- Claim C6: within a tick the staged candidates are delivered in the
stable ascending order of `get_sort_key` (absent dates sort as the
minimum sentinel): the attempted list equals the stable sort of the
staged candidates when no delivery fails fatally, is always an in-order
front of it, the sort output is sorted, and the spec's worked examples —
discovery order [t3, t1, t2] delivered as [t1, t2, t3], an undated
candidate delivered before a dated one, ties kept in discovery order —
evaluate as stated. -/
theorem delivery_sorted_by_date :
    (∀ (seen : List String) (entries : List Entry),
      (tick (fun _ => SendOutcome.ok) seen entries).attempted
        = sortByDate (stageCandidates seen entries)) ∧
    (∀ (f : Entry → SendOutcome) (seen : List String) (entries : List Entry),
      ∃ rest, sortByDate (stageCandidates seen entries)
        = (tick f seen entries).attempted ++ rest) ∧
    (∀ l : List Entry, List.Sorted dateLe (sortByDate l)) ∧
    sortByDate [eT3, eT1, eT2] = [eT1, eT2, eT3] ∧
    sortByDate [eDated, eUndated] = [eUndated, eDated] ∧
    sortByDate [eTieA, eTieB] = [eTieA, eTieB] := by
  refine ⟨fun seen entries => ?_, fun f seen entries => deliverAll_front f _,
    fun l => List.sorted_insertionSort dateLe l, by decide, by decide, by decide⟩
  exact deliverAll_ok _

/- ---------- claim C7 ---------- -/

/-- Claim C7: a transient delivery failure does not prevent delivery
attempts for the remaining candidates of the tick; a fatal
permission-denied failure abandons the remaining deliveries, but the tick
still completes and the seen-list updates are retained independently of
any delivery outcome (no rollback). -/
theorem delivery_fault_isolation (f : Entry → SendOutcome) :
    (∀ l : List Entry, (∀ e ∈ l, f e ≠ SendOutcome.forbidden) →
      deliverAll f l = l) ∧
    (∀ (l1 : List Entry) (e : Entry) (l2 : List Entry),
      (∀ x ∈ l1, f x ≠ SendOutcome.forbidden) → f e = SendOutcome.forbidden →
      deliverAll f (l1 ++ e :: l2) = l1 ++ [e]) ∧
    (∀ (g : Entry → SendOutcome) (seen : List String) (entries : List Entry),
      (tick f seen entries).seen = (tick g seen entries).seen) :=
  ⟨deliverAll_no_forbidden f,
   fun l1 e l2 h hf => deliverAll_break f e hf l1 l2 h,
   fun _ _ _ => rfl⟩

/-- Claim C7, witness: the failure-isolation facts evaluated with an
oracle that fails fatally on guid "b" and transiently elsewhere. -/
theorem delivery_fault_isolation_w :
    fW eB = SendOutcome.forbidden ∧
    deliverAll fW ([eA] ++ eB :: [eGc]) = [eA] ++ [eB] ∧
    deliverAll fW [eA, eGc] = [eA, eGc] ∧
    (tick fW [] [eA]).seen = (tick (fun _ => SendOutcome.ok) [] [eA]).seen :=
  ⟨by decide,
   (delivery_fault_isolation fW).2.1 [eA] eB [eGc] (by decide) (by decide),
   (delivery_fault_isolation fW).1 [eA, eGc] (by decide),
   (delivery_fault_isolation fW).2.2 (fun _ => SendOutcome.ok) [] [eA]⟩

/- ---------- claim C8 ---------- -/

/-- Claim C8: the extractor is a total function; absent content, empty
content and content with no stat-shaped token all yield the
"no stat found" value (`none`, not zero) rather than an error. -/
theorem extractor_never_raises (e : Entry) :
    (e.content = none → parse_resource_values e = (none, none)) ∧
    (∀ s, e.content = some s → s = "" → parse_resource_values e = (none, none)) ∧
    (∀ s, e.content = some s → findMatches s = [] →
      parse_resource_values e = (none, none)) := by
  refine ⟨parse_content_none e, fun s hc hs => ?_, fun s hc hm => ?_⟩
  · rw [parse_content_some e s hc, if_pos hs]
  · rw [parse_content_some e s hc]
    by_cases hs : s = ""
    · rw [if_pos hs]
    · rw [if_neg hs, if_pos (by simp [hm])]

/-- Claim C8, witness: the no-stat outcomes evaluated on an entry without
content, an entry with empty content and an entry with token-free
content. -/
theorem extractor_never_raises_w :
    baseE.content = none ∧ parse_resource_values baseE = (none, none) ∧
    eEmptyC.content = some "" ∧ parse_resource_values eEmptyC = (none, none) ∧
    eNoTok.content = some "no stats in here" ∧
    findMatches "no stats in here" = [] ∧
    parse_resource_values eNoTok = (none, none) :=
  ⟨rfl, (extractor_never_raises baseE).1 rfl, rfl,
   (extractor_never_raises eEmptyC).2.1 "" rfl rfl, rfl, by decide,
   (extractor_never_raises eNoTok).2.2 _ rfl (by decide)⟩

/- ---------- claim C9 ---------- -/

/-- Claim C9, counterexample: re-delivery after eviction.  Over a feed one
item larger than the capacity, the matching item "0" is a delivery
candidate of the first cold-start tick (whose delivery fails
transiently), its guid is evicted by the trim of that same tick, and the
next tick over the same feed stages it again. -/
theorem eviction_restage_cex :
    ((tick (fun _ => SendOutcome.transient) initialSeen feedC9).attempted).map
      entryGuid = ["0"] ∧
    ((stageCandidates
        (tick (fun _ => SendOutcome.transient) initialSeen feedC9).seen
        feedC9).map entryGuid) = ["0"] := by
  constructor
  · decide
  · decide

/-- Claim C9, amended: every fetched guid is recorded in the seen state
the delivery phase observes, the end-of-tick seen list is independent of
the delivery outcomes, and a candidate whose delivery failed is never
staged again on a later tick WHILE its id remains in the Seen-Set; after
FIFO eviction the id can be re-staged. -/
theorem record_before_deliver (f g : Entry → SendOutcome) (seen : List String)
    (entries : List Entry) (e : Entry) :
    (tick f seen entries).seen
      = trimSeen (recordGuids seen (entries.map entryGuid)) ∧
    (tick f seen entries).seen = (tick g seen entries).seen ∧
    (e ∈ entries → entryGuid e ∈ recordGuids seen (entries.map entryGuid)) ∧
    (entryGuid e ∈ seen → e ∉ stageCandidates seen entries) :=
  ⟨rfl, rfl,
   fun h => mem_recordGuids_right _ _ _ (List.mem_map_of_mem entryGuid h),
   fun h => not_staged_of_seen _ _ _ h⟩

/-- Claim C9, witness: the record-before-deliver facts evaluated on a
singleton fetch and a pre-seen guid. -/
theorem record_before_deliver_w :
    (tick fW ["s"] [eA]).seen = trimSeen (recordGuids ["s"] ([eA].map entryGuid)) ∧
    eA ∈ [eA] ∧ entryGuid eA ∈ recordGuids ["s"] ([eA].map entryGuid) ∧
    entryGuid eA ∈ ["a"] ∧ eA ∉ stageCandidates ["a"] [eA] :=
  ⟨(record_before_deliver fW (fun _ => SendOutcome.ok) ["s"] [eA] eA).1, by decide,
   (record_before_deliver fW (fun _ => SendOutcome.ok) ["s"] [eA] eA).2.2.1
     (by decide),
   by decide,
   (record_before_deliver fW (fun _ => SendOutcome.ok) ["a"] [eA] eA).2.2.2
     (by decide)⟩

/- ---------- claim C10 ---------- -/

/-- Claim C10: when every stat-shaped token of the content has value 0,
the extractor reports no stat code (the fold never replaces its initial
`None`), and no stat annotation message is sent for the item. -/
theorem zero_stats_suppressed (e : Entry) (s : String) (hc : e.content = some s)
    (hz : ∀ m ∈ findMatches s, m.2 = 0) :
    (parse_resource_values e).1 = none ∧ sendsStatMsg e = false := by
  have hp : parse_resource_values e = (none, none) ∨
      parse_resource_values e = (none, some 0) := by
    rw [parse_content_some e s hc]
    by_cases hs : s = ""
    · left; rw [if_pos hs]
    · rw [if_neg hs]
      by_cases hm : (findMatches s).isEmpty
      · left; rw [if_pos hm]
      · right; rw [if_neg hm, highestOf_of_all_zero _ hz]
  rcases hp with hp | hp
  · exact ⟨by rw [hp], by rw [sendsStatMsg, hp]⟩
  · exact ⟨by rw [hp], by rw [sendsStatMsg, hp]⟩

/-- Claim C10, witness: the zero-value suppression evaluated on content
holding two zero-valued tokens. -/
theorem zero_stats_suppressed_w :
    eZeros.content = some "OQ 0 PE 0" ∧
    findMatches "OQ 0 PE 0" = [("OQ", 0), ("PE", 0)] ∧
    (parse_resource_values eZeros).1 = none ∧ sendsStatMsg eZeros = false :=
  ⟨rfl, by decide,
   (zero_stats_suppressed eZeros _ rfl (by decide)).1,
   (zero_stats_suppressed eZeros _ rfl (by decide)).2⟩

end ResourceBot
